import Mathlib

/-!
# Verification of the e-commerce return-analysis pipeline

Shallow embedding of the pipeline in `src/codebase`:
`data_cleaning.py`, `return_analysis.py`, `return_prediction_model.py`.
Floats are modelled as rationals (`ℚ`), pandas missing values (`NaN`/`NaT`)
as `Option.none`, and pandas dataframes as lists of records plus an explicit
list of columns added beyond the cleaned schema.
-/

namespace ReturnPipeline

/-! ## Cleaning (`data_cleaning.py`) -/

/-- A raw identifier cell as pandas sees it.  `na` models a missing value
(`NaN`/`None`, where `pd.notna` is false); `num q` models any value accepted by
Python's `float()` — a numeric cell (including one printed in scientific form,
e.g. `1.5e3`) or a numeric string; `text s` models a non-missing value that
`float()` rejects. -/
inductive CellValue where
  | na : CellValue
  | num (q : ℚ) : CellValue
  | text (s : String) : CellValue
deriving DecidableEq, Repr

/-- Failure raised while cleaning a cell (Python `ValueError` from `float`). -/
inductive CleanError where
  | nonNumericIdentifier : CleanError
deriving DecidableEq, Repr

/-- Python `int(·)` on a rational value: truncation toward zero. -/
def truncQ (q : ℚ) : ℤ :=
  if 0 ≤ q then ⌊q⌋ else -⌊-q⌋

/-- Source `data_cleaning.py` lines 19–20:
`lambda x: int(float(x)) if pd.notna(x) else x` applied to the
`Transaction ID` / `Item ID` columns.  A missing cell is returned unchanged;
a numeric cell is parsed by `float` and truncated to an integer by `int`;
a non-numeric, non-missing cell makes `float(x)` raise `ValueError`. -/
def cleanIdentifier : CellValue → Except CleanError CellValue
  | .na => .ok .na
  | .num q => .ok (.num ((truncQ q : ℤ) : ℚ))
  | .text _ => .error .nonNumericIdentifier

/-- Source `data_cleaning.py` line 27:
`df_clean['is_return'] = (df_clean['Final Quantity'] < config.RETURN_THRESHOLD).astype(int)`.
A missing quantity (`NaN`) compares false under `<` in pandas, hence flag 0. -/
def is_return_flag (finalQuantity : Option ℚ) (threshold : ℚ) : ℕ :=
  if (match finalQuantity with
      | some q => decide (q < threshold)
      | none => false) then 1 else 0

/-! ## Risk tiers (`return_prediction_model.py` lines 108–110) -/

/-- The three risk tiers used as `labels=['Low', 'Medium', 'High']`. -/
inductive RiskTier where
  | Low : RiskTier
  | Medium : RiskTier
  | High : RiskTier
deriving DecidableEq, Repr

/-- The call `pd.cut(return_proba, bins=[0, 0.3, 0.7, 1], labels=['Low','Medium','High'])`
with pandas defaults `right=True`, `include_lowest=False`: the bins are the
right-closed intervals `(0, 0.3]`, `(0.3, 0.7]`, `(0.7, 1]`, and a value in no
bin (in particular exactly `0`) is mapped to `NaN`, modelled as `none`. -/
def riskCategory (p : ℚ) : Option RiskTier :=
  if 0 < p ∧ p ≤ 3/10 then some .Low
  else if 3/10 < p ∧ p ≤ 7/10 then some .Medium
  else if 7/10 < p ∧ p ≤ 1 then some .High
  else none

/-! ## Cleaned records and frames -/

/-- A calendar date, as produced by `pd.to_datetime` when parsing succeeds. -/
structure Date where
  year : ℤ
  month : ℕ
  day : ℕ
deriving DecidableEq, Repr

/-- One row of the cleaned table (`data_cleaning.py` output), restricted to the
fields the analysed stages read.  `category` and `date` may be missing
(`NaN`/`NaT` from the raw file or from `errors='coerce'` date parsing, line 24);
`versionClean` is `Version_clean` (line 31), a plain string because
`astype(str)` turns a missing `Version` into the literal text `"nan"`. -/
structure CleanedRecord where
  itemName : String
  category : Option String
  version : String
  versionClean : String
  date : Option Date
  is_return : ℕ
  finalRevenueAbs : ℚ
  totalRevenueAbs : ℚ
deriving DecidableEq, Repr

/-- The expression `df['Date'].dt.to_period('M')` on one row: the year/month period, `none`
when the date is `NaT`. -/
def yearMonth (r : CleanedRecord) : Option (ℤ × ℕ) :=
  r.date.map (fun d => (d.year, d.month))

/-- A pandas dataframe holding cleaned records: its rows, plus the names of
the columns that code has added beyond the cleaned schema (in-place column
assignment `df['c'] = …` appends to `extraCols`; all other fields live inside
`CleanedRecord`). -/
structure Frame where
  rows : List CleanedRecord
  extraCols : List String
deriving DecidableEq, Repr

/-! ## Label encoding (`return_prediction_model.py` lines 22–28 and 96–97) -/

/-- Embeds `sklearn.preprocessing.LabelEncoder.fit` (used via `fit_transform`,
line 27): `classes_ = np.unique(values)` — the distinct observed strings in
ascending (lexicographic) sorted order.  The comparison
`fun a b => a.data ≤ b.data` is exactly `String` order (`le_iff_toList_le`),
spelled on the character lists. -/
def labelEncoderClasses (xs : List String) : List String :=
  List.insertionSort (fun a b => a.data ≤ b.data) xs.dedup

/-- Embeds `LabelEncoder.fit_transform(values)` (line 27): each value is replaced by
its index in the sorted class list (`np.searchsorted` on `classes_`). -/
def labelEncoderFitTransform (xs : List String) : List ℕ :=
  xs.map (fun x => (labelEncoderClasses xs).indexOf x)

/-- Failure raised by `LabelEncoder.transform` at scoring time
(`ValueError: y contains previously unseen labels`), named
`UnseenCategoryError` in the design taxonomy. -/
inductive UnseenCategoryError where
  | unseen : UnseenCategoryError
deriving DecidableEq, Repr

/-- Embeds `LabelEncoder.transform(values)` with a frozen class list (line 97):
raises on any value not among the fitted classes, otherwise returns each
value's code. -/
def labelEncoderTransform (classes : List String) :
    List String → Except UnseenCategoryError (List ℕ)
  | [] => .ok []
  | x :: xs =>
    if x ∈ classes then
      match labelEncoderTransform classes xs with
      | .ok rest => .ok (classes.indexOf x :: rest)
      | .error e => .error e
    else .error .unseen

/-- Modelled from the spec: the encoding §4.3 describes, "each distinct
observed string value … is mapped to a unique integer code, assigned by
first-seen order during training" — the distinct strings in order of first
occurrence.  Stated only to compare with `labelEncoderClasses`, the encoding
the source actually builds. -/
def firstSeenClasses (xs : List String) : List String :=
  xs.foldl (fun acc x => if x ∈ acc then acc else acc ++ [x]) []

/-! ## Training (`return_prediction_model.py` lines 52–63) -/

/-- Failure for structurally degenerate training input, named `DataError` in
the design taxonomy (here: the single-class `ValueError` raised by
`LogisticRegression.fit`). -/
inductive DataError where
  | singleClass : DataError
deriving DecidableEq, Repr

/-- The fitted classifier's class metadata (`model.classes_`): the distinct
label values seen in the training data.  The fitted coefficients are
float-optimiser output and play no role in the verified properties. -/
structure FittedModel where
  classes : List ℕ
deriving DecidableEq, Repr

/-- Embeds `LogisticRegression.fit` on the training labels (line 63): sklearn raises
`ValueError: This solver needs samples of at least 2 classes in the data`
when the labels take fewer than two distinct values; otherwise it fits. -/
def logisticRegressionFit (yTrain : List ℕ) : Except DataError FittedModel :=
  if 2 ≤ yTrain.dedup.length then .ok ⟨yTrain.dedup⟩ else .error .singleClass

/-- The labels landing in the training split of `train_test_split`
(line 52): the seeded shuffle is abstracted as a Boolean selection mask over
the population, since the verified properties hold for every mask. -/
def trainSplitLabels (y : List ℕ) (sel : List Bool) : List ℕ :=
  ((y.zip sel).filter (fun p => p.2)).map (fun p => p.1)

/-- Embeds `train_return_prediction_model` (lines 52–63), restricted to its
label-side behaviour: split off a training subset, then fit the classifier
on its labels. -/
def train_return_prediction_model (y : List ℕ) (sel : List Bool) :
    Except DataError FittedModel :=
  logisticRegressionFit (trainSplitLabels y sel)

/-! ## Descriptive aggregation (`return_analysis.py` lines 13–72) -/

/-- The grouping keys `df.groupby(key)` iterates over: the distinct non-null
key values occurring in the rows (pandas `groupby` drops rows whose key is
`NaN`/`NaT`, its default `dropna=True`).  Pandas additionally sorts the
groups by key; group order is immaterial to the verified properties, so the
distinct keys are kept in list-`dedup` order. -/
def groupKeys {κ : Type} [DecidableEq κ] (g : CleanedRecord → Option κ)
    (rows : List CleanedRecord) : List κ :=
  (rows.filterMap g).dedup

/-- One row of an aggregated table produced by `df.groupby(key).agg(...)`.
Each concrete table of `comprehensive_return_analysis` reads a subset of
these columns: the category table all five, the monthly table
`total_orders`/`returns`/`return_rate`/`final_revenue`, the version table
`total_orders`/`return_rate`. -/
structure GroupRow (κ : Type) where
  key : κ
  total_orders : ℕ
  returns : ℕ
  return_rate : ℚ
  final_revenue : ℚ
  total_revenue : ℚ
deriving DecidableEq, Repr

/-- Embeds `df.groupby(g).agg({'is_return': ['count','sum','mean'], …})`: one
`GroupRow` per non-null key, aggregating the rows carrying that key. -/
def aggBy {κ : Type} [DecidableEq κ] (g : CleanedRecord → Option κ)
    (rows : List CleanedRecord) : List (GroupRow κ) :=
  (groupKeys g rows).map (fun k =>
    let grp := rows.filter (fun r => decide (g r = some k))
    { key := k
      total_orders := grp.length
      returns := (grp.map (fun r => r.is_return)).sum
      return_rate := ((grp.map (fun r => r.is_return)).sum : ℚ) / (grp.length : ℚ)
      final_revenue := (grp.map (fun r => r.finalRevenueAbs)).sum
      total_revenue := (grp.map (fun r => r.totalRevenueAbs)).sum })

/-- Descending sort by `return_rate` (`sort_values('return_rate',
ascending=False)`). -/
def sortByRateDesc {κ : Type} (l : List (GroupRow κ)) : List (GroupRow κ) :=
  List.insertionSort (fun a b => b.return_rate ≤ a.return_rate) l

/-- Source `return_analysis.py` lines 29–37: the per-category table, sorted by
return rate descending. -/
def category_analysis (rows : List CleanedRecord) : List (GroupRow String) :=
  sortByRateDesc (aggBy (fun r => r.category) rows)

/-- Source `return_analysis.py` lines 43–49: the monthly table, grouped by the
`year_month` period column (rows with an unparsable date have period `NaT`
and are dropped by `groupby`). -/
def monthly_trends (rows : List CleanedRecord) : List (GroupRow (ℤ × ℕ)) :=
  aggBy yearMonth rows

/-- Source `return_analysis.py` lines 54–58: the per-version table; groups with
`total_orders > 10` are kept (`version_analysis[version_analysis['total_orders'] > 10]`),
then sorted by return rate descending.  `Version_clean` is never null
(`astype(str)` in cleaning), so every row lands in a group. -/
def version_analysis (rows : List CleanedRecord) : List (GroupRow String) :=
  sortByRateDesc ((aggBy (fun r => some r.versionClean) rows).filter
    (fun gr => decide (10 < gr.total_orders)))

/-- The dictionary returned by `comprehensive_return_analysis`
(lines 63–72). -/
structure AnalysisResults where
  category_analysis : List (GroupRow String)
  monthly_trends : List (GroupRow (ℤ × ℕ))
  version_analysis : List (GroupRow String)
  total_orders : ℕ
  total_returns : ℕ
deriving DecidableEq, Repr

/-- Embeds `comprehensive_return_analysis(df)` (lines 13–72) together with its
effect on the caller's frame: line 43,
`df['year_month'] = df['Date'].dt.to_period('M')`, assigns a new column on
the input dataframe in place, so the second component — the state of the
caller's `df` after the call — has `"year_month"` appended to its added
columns while the underlying records are untouched. -/
def comprehensive_return_analysis (df : Frame) : AnalysisResults × Frame :=
  ({ category_analysis := category_analysis df.rows
     monthly_trends := monthly_trends df.rows
     version_analysis := version_analysis df.rows
     total_orders := df.rows.length
     total_returns := (df.rows.map (fun r => r.is_return)).sum },
   { df with extraCols := df.extraCols ++ ["year_month"] })

/-! ## Scoring and export (`return_prediction_model.py` lines 86–146) -/

/-- A row of `df_with_risk`: a cleaned record plus the two columns added at
lines 107–110. -/
structure ScoredRecord where
  base : CleanedRecord
  return_probability : ℚ
  risk_category : Option RiskTier
deriving DecidableEq, Repr

/-- Embeds `identify_high_risk_products(df, model, scaler, features, label_encoders)`
(lines 86–127).  The fitted model and scaler are deterministic once frozen,
so their composite — per-record predicted return probability — is taken as
the function argument `proba`.  The two `LabelEncoder.transform` calls
(lines 96–97) run on `astype(str)` columns, so a missing category becomes the
text `"nan"`; an unseen string aborts with `UnseenCategoryError`.  On success
the result is `(df, df_with_risk, high_risk_products)`: the state of the
caller's `df` after the call (all column writes go to the copies made at
lines 93 and 106), the scored copy, and its rows with probability
strictly above `0.7` (line 113). -/
def identify_high_risk_products (catClasses verClasses : List String)
    (proba : CleanedRecord → ℚ) (df : Frame) :
    Except UnseenCategoryError (Frame × List ScoredRecord × List ScoredRecord) :=
  match labelEncoderTransform catClasses
          (df.rows.map (fun r => r.category.getD "nan")),
        labelEncoderTransform verClasses
          (df.rows.map (fun r => r.versionClean)) with
  | .ok _, .ok _ =>
    let dfWithRisk := df.rows.map (fun r =>
      { base := r
        return_probability := proba r
        risk_category := riskCategory (proba r) : ScoredRecord })
    .ok (df, dfWithRisk,
      dfWithRisk.filter (fun s => decide ((7 : ℚ)/10 < s.return_probability)))
  | .error e, _ => .error e
  | _, .error e => .error e

/-- One row of the exported high-risk list: the `output_columns` selected at
lines 134–138. -/
structure HighRiskOutputRow where
  itemName : String
  category : Option String
  version : String
  versionClean : String
  return_probability : ℚ
  risk_category : Option RiskTier
  finalRevenueAbs : ℚ
  is_return : ℕ
  date : Option Date
deriving DecidableEq, Repr

/-- Column selection `high_risk_products[output_columns]` (line 140). -/
def selectOutputColumns (s : ScoredRecord) : HighRiskOutputRow :=
  { itemName := s.base.itemName
    category := s.base.category
    version := s.base.version
    versionClean := s.base.versionClean
    return_probability := s.return_probability
    risk_category := s.risk_category
    finalRevenueAbs := s.base.finalRevenueAbs
    is_return := s.base.is_return
    date := s.base.date }

/-- Embeds `save_high_risk_products` (lines 129–146): select the output columns,
then `sort_values('return_probability', ascending=False)`. -/
def save_high_risk_products (highRisk : List ScoredRecord) :
    List HighRiskOutputRow :=
  List.insertionSort
    (fun a b => b.return_probability ≤ a.return_probability)
    (highRisk.map selectOutputColumns)

/-! ## Helper lemmas -/

/-- Truncation toward zero is the identity on integer rationals
(`int(float(n)) = n`). -/
theorem truncQ_intCast (n : ℤ) : truncQ ((n : ℤ) : ℚ) = n := by
  unfold truncQ
  split
  · exact_mod_cast Int.floor_intCast n
  · rw [← Int.cast_neg, Int.floor_intCast, neg_neg]

/-! ## C1: risk-tier assignment -/

/-- C1 (amended). On the half-open interval `(0, 1]` the risk tier is a
total, deterministic function of the probability with the stated boundaries:
`p ≤ 0.3 → Low`, `0.3 < p ≤ 0.7 → Medium`, `p > 0.7 → High`.  The point
`p = 0` is excluded: `pd.cut` with `bins=[0, 0.3, 0.7, 1]` uses left-open
bins, so `0` falls outside every bin (see `c1_zero_counterexample`). -/
theorem c1_risk_tier_total_on_open_unit (p : ℚ) (hp0 : 0 < p) (hp1 : p ≤ 1) :
    riskCategory p =
      some (if p ≤ 3/10 then RiskTier.Low
            else if p ≤ 7/10 then RiskTier.Medium
            else RiskTier.High) := by
  unfold riskCategory
  rcases le_or_lt p (3/10) with h3 | h3
  · rw [if_pos ⟨hp0, h3⟩, if_pos h3]
  · rw [if_neg (fun h => absurd h.2 (not_le.mpr h3)), if_neg (not_le.mpr h3)]
    rcases le_or_lt p (7/10) with h7 | h7
    · rw [if_pos ⟨h3, h7⟩, if_pos h7]
    · rw [if_neg (fun h => absurd h.2 (not_le.mpr h7)), if_neg (not_le.mpr h7),
        if_pos ⟨h7, hp1⟩]

/-- C1 witness: at `p = 1/2` the hypotheses hold and the tier is `Medium`. -/
theorem c1_witness :
    (0 : ℚ) < 1/2 ∧ (1 : ℚ)/2 ≤ 1 ∧ riskCategory (1/2) = some RiskTier.Medium := by
  refine ⟨by norm_num, by norm_num, ?_⟩
  rw [c1_risk_tier_total_on_open_unit (1/2) (by norm_num) (by norm_num)]
  norm_num

/-- C1 counterexample: the claim says every `p ∈ [0,1]`, including `p = 0`,
receives a tier (`Low`, since `0 ≤ 0.3`); but `pd.cut`'s first bin is the
left-open `(0, 0.3]`, so `p = 0` receives no tier at all. -/
theorem c1_zero_counterexample : riskCategory 0 = none := by
  norm_num [riskCategory]

/-! ## C3: return flag -/

/-- C3 (confirmed). The cleaned record's return flag is `1` iff the quantity
field holds a value strictly below the configured threshold (a missing
quantity compares false, as in pandas), is `0` otherwise, and is never both. -/
theorem c3_return_flag_iff (q : Option ℚ) (t : ℚ) :
    (is_return_flag q t = 1 ↔ ∃ v, q = some v ∧ v < t) ∧
    (is_return_flag q t = 0 ↔ ¬ ∃ v, q = some v ∧ v < t) ∧
    ¬ (is_return_flag q t = 0 ∧ is_return_flag q t = 1) := by
  cases q with
  | none => simp [is_return_flag]
  | some v =>
    by_cases h : v < t
    · simp [is_return_flag, h]
    · simp [is_return_flag, h]

/-! ## C8: identifier cleaning -/

/-- C8 (amended).  Identifier cleaning parses a numeric value — including one
stored in scientific form, `m·10^e` — into the corresponding integer, and a
missing value passes through unchanged; but a non-numeric, non-missing value
does not pass through: `float(x)` raises (`ValueError`), aborting cleaning. -/
theorem c8_identifier_cleaning (m : ℤ) (e : ℕ) (s : String) :
    cleanIdentifier (.num ((m : ℚ) * 10 ^ e)) =
      .ok (.num ((m * 10 ^ e : ℤ) : ℚ)) ∧
    cleanIdentifier .na = .ok .na ∧
    cleanIdentifier (.text s) = .error .nonNumericIdentifier := by
  refine ⟨?_, rfl, rfl⟩
  have hcast : ((m : ℚ) * 10 ^ e) = ((m * 10 ^ e : ℤ) : ℚ) := by push_cast; ring
  simp only [cleanIdentifier, hcast, truncQ_intCast]

/-- C8 counterexample: the claim says a non-numeric value passes through
unchanged; on the concrete non-numeric cell `"abc"` cleaning instead fails. -/
theorem c8_counterexample :
    cleanIdentifier (.text "abc") = .error .nonNumericIdentifier ∧
    cleanIdentifier (.text "abc") ≠ .ok (.text "abc") := by
  refine ⟨rfl, ?_⟩
  intro h
  exact Except.noConfusion h

/-! ## C4: single-class training input -/

/-- Every label in the training split comes from the population. -/
theorem mem_of_mem_trainSplitLabels {y : List ℕ} {sel : List Bool} {x : ℕ}
    (hx : x ∈ trainSplitLabels y sel) : x ∈ y := by
  unfold trainSplitLabels at hx
  simp only [List.mem_map, List.mem_filter] at hx
  obtain ⟨⟨a, b⟩, ⟨hz, _⟩, rfl⟩ := hx
  exact (List.of_mem_zip hz).1

/-- A list whose elements are all equal has at most one distinct value. -/
theorem length_dedup_le_one {l : List ℕ} {c : ℕ} (h : ∀ x ∈ l, x = c) :
    l.dedup.length ≤ 1 := by
  induction l with
  | nil => simp
  | cons a tl ih =>
    have ha : a = c := h a (List.mem_cons_self a tl)
    have htl : ∀ x ∈ tl, x = c := fun x hx => h x (List.mem_cons_of_mem a hx)
    by_cases hmem : a ∈ tl.dedup
    · rw [List.dedup_cons_of_mem' hmem]
      exact ih htl
    · rw [List.dedup_cons_of_not_mem' hmem]
      have hnil : tl.dedup = [] := by
        rw [List.eq_nil_iff_forall_not_mem]
        intro x hx
        have hxc : x = a := (htl x (List.mem_dedup.mp hx)).trans ha.symm
        exact hmem (hxc ▸ hx)
      simp [hnil]

/-- C4 (confirmed). Training on a population whose return-flag label takes a
single value fails with `DataError` for every train/test selection — the
classifier's fit rejects single-class label data — and conversely a
successful fit forces at least two distinct label values in the population. -/
theorem c4_single_class_training_fails (y : List ℕ) (sel : List Bool) :
    ((∃ c, ∀ l ∈ y, l = c) →
      train_return_prediction_model y sel = .error .singleClass) ∧
    (∀ m, train_return_prediction_model y sel = .ok m →
      2 ≤ y.dedup.length) := by
  constructor
  · rintro ⟨c, hc⟩
    have hall : ∀ x ∈ trainSplitLabels y sel, x = c :=
      fun x hx => hc x (mem_of_mem_trainSplitLabels hx)
    have hlen := length_dedup_le_one hall
    unfold train_return_prediction_model logisticRegressionFit
    rw [if_neg (by omega)]
  · intro m hm
    unfold train_return_prediction_model logisticRegressionFit at hm
    by_cases h2 : 2 ≤ (trainSplitLabels y sel).dedup.length
    · have hsub : (trainSplitLabels y sel).toFinset ⊆ y.toFinset := by
        intro x hx
        rw [List.mem_toFinset] at hx ⊢
        exact mem_of_mem_trainSplitLabels hx
      calc 2 ≤ (trainSplitLabels y sel).dedup.length := h2
        _ = (trainSplitLabels y sel).toFinset.card :=
            (List.card_toFinset _).symm
        _ ≤ y.toFinset.card := Finset.card_le_card hsub
        _ = y.dedup.length := List.card_toFinset y
    · rw [if_neg h2] at hm
      exact Except.noConfusion hm

/-- C4 witness: the all-zero-label population `[0, 0, 0]` fails with
`DataError` under the concrete selection `[true, true, false]`. -/
theorem c4_witness :
    train_return_prediction_model [0, 0, 0] [true, true, false] =
      .error .singleClass :=
  (c4_single_class_training_fails [0, 0, 0] [true, true, false]).1
    ⟨0, by decide⟩

/-! ## C5: unseen category at scoring time -/

/-- The transform succeeds when every value was fitted. -/
theorem labelEncoderTransform_ok {classes : List String} {xs : List String}
    (h : ∀ x ∈ xs, x ∈ classes) :
    ∃ codes, labelEncoderTransform classes xs = .ok codes := by
  induction xs with
  | nil => exact ⟨[], rfl⟩
  | cons a tl ih =>
    obtain ⟨codes, hc⟩ := ih (fun x hx => h x (List.mem_cons_of_mem a hx))
    refine ⟨classes.indexOf a :: codes, ?_⟩
    unfold labelEncoderTransform
    rw [if_pos (h a (List.mem_cons_self a tl)), hc]

/-- The transform fails when some value was never fitted. -/
theorem labelEncoderTransform_error {classes : List String} {xs : List String}
    (h : ∃ x ∈ xs, x ∉ classes) :
    labelEncoderTransform classes xs = .error .unseen := by
  induction xs with
  | nil => simp at h
  | cons a tl ih =>
    by_cases ha : a ∈ classes
    · obtain ⟨x, hx, hxc⟩ := h
      rcases List.mem_cons.mp hx with rfl | hxtl
      · exact absurd ha hxc
      · unfold labelEncoderTransform
        rw [if_pos ha, ih ⟨x, hxtl, hxc⟩]
    · unfold labelEncoderTransform
      rw [if_neg ha]

/-- C5 (confirmed). Scoring a population against the frozen encoders fails
with `UnseenCategoryError` as soon as some record carries a category string
(after `astype(str)`, so a missing category reads `"nan"`) or normalized
version string that was not seen during training; when every such string was
seen, scoring succeeds for the whole population. -/
theorem c5_unseen_category (catC verC : List String)
    (proba : CleanedRecord → ℚ) (df : Frame) :
    ((∃ r ∈ df.rows, r.category.getD "nan" ∉ catC ∨ r.versionClean ∉ verC) →
      identify_high_risk_products catC verC proba df = .error .unseen) ∧
    ((∀ r ∈ df.rows, r.category.getD "nan" ∈ catC ∧ r.versionClean ∈ verC) →
      ∃ out, identify_high_risk_products catC verC proba df = .ok out) := by
  constructor
  · rintro ⟨r, hr, hbad | hbad⟩
    · have herr : labelEncoderTransform catC
          (df.rows.map (fun r => r.category.getD "nan")) = .error .unseen :=
        labelEncoderTransform_error
          ⟨r.category.getD "nan", List.mem_map_of_mem _ hr, hbad⟩
      unfold identify_high_risk_products
      rw [herr]
      cases hver : labelEncoderTransform verC
          (df.rows.map (fun r => r.versionClean)) with
      | ok v => rfl
      | error e => cases e; rfl
    · have herr : labelEncoderTransform verC
          (df.rows.map (fun r => r.versionClean)) = .error .unseen :=
        labelEncoderTransform_error
          ⟨r.versionClean, List.mem_map_of_mem _ hr, hbad⟩
      unfold identify_high_risk_products
      rw [herr]
      cases hcat : labelEncoderTransform catC
          (df.rows.map (fun r => r.category.getD "nan")) with
      | ok v => rfl
      | error e => cases e; rfl
  · intro h
    obtain ⟨c1, h1⟩ := @labelEncoderTransform_ok catC
      (df.rows.map (fun r => r.category.getD "nan"))
      (by
        intro x hx
        obtain ⟨r, hr, rfl⟩ := List.mem_map.mp hx
        exact (h r hr).1)
    obtain ⟨c2, h2⟩ := @labelEncoderTransform_ok verC
      (df.rows.map (fun r => r.versionClean))
      (by
        intro x hx
        obtain ⟨r, hr, rfl⟩ := List.mem_map.mp hx
        exact (h r hr).2)
    unfold identify_high_risk_products
    rw [h1, h2]
    exact ⟨_, rfl⟩

/-- A concrete cleaned record used by witnesses. -/
def sampleRecord : CleanedRecord :=
  { itemName := "widget"
    category := some "Electronics"
    version := "S/blue"
    versionClean := "S"
    date := some ⟨2024, 1, 5⟩
    is_return := 0
    finalRevenueAbs := 10
    totalRevenueAbs := 10 }

/-- C5 witness: with encoders fitted on exactly the strings of
`sampleRecord`, scoring the one-record frame succeeds. -/
theorem c5_witness :
    ∃ out, identify_high_risk_products ["Electronics"] ["S"]
      (fun _ => 0) ⟨[sampleRecord], []⟩ = .ok out :=
  (c5_unseen_category ["Electronics"] ["S"] (fun _ => 0)
      ⟨[sampleRecord], []⟩).2
    (by intro r hr; rw [List.mem_singleton.mp hr]; exact ⟨by decide, by decide⟩)

/-! ## C2: category/version encoding -/

instance : IsTotal String (fun a b => a.data ≤ b.data) :=
  ⟨fun a b => le_total a.data b.data⟩

instance : IsTrans String (fun a b => a.data ≤ b.data) :=
  ⟨fun _ _ _ h1 h2 => le_trans h1 h2⟩

/-- C2 (amended). The encoding built by `LabelEncoder.fit_transform` during
feature preparation is a bijection from the distinct observed strings —
ordered **ascending lexicographically** (`np.unique` sorts; first-seen order
is not used, see `c2_counterexample`) — to the codes `0..k-1`: the fitted
class list is duplicate-free, contains exactly the observed strings, is
sorted, each class's code (its index) lies below `k`, codes are injective,
every code below `k` is attained, and re-encoding the same population yields
identical codes. -/
theorem c2_encoding_sorted_bijection (xs : List String) :
    (labelEncoderClasses xs).Nodup ∧
    (∀ x, x ∈ labelEncoderClasses xs ↔ x ∈ xs) ∧
    (labelEncoderClasses xs).Sorted (· ≤ ·) ∧
    (∀ x ∈ labelEncoderClasses xs,
      (labelEncoderClasses xs).indexOf x < (labelEncoderClasses xs).length) ∧
    (∀ x ∈ labelEncoderClasses xs, ∀ y ∈ labelEncoderClasses xs,
      (labelEncoderClasses xs).indexOf x = (labelEncoderClasses xs).indexOf y →
        x = y) ∧
    (∀ i : ℕ, i < (labelEncoderClasses xs).length →
      ∃ x ∈ labelEncoderClasses xs, (labelEncoderClasses xs).indexOf x = i) ∧
    labelEncoderFitTransform xs = labelEncoderFitTransform xs := by
  have hperm : List.Perm (labelEncoderClasses xs) xs.dedup :=
    List.perm_insertionSort _ _
  have hnodup : (labelEncoderClasses xs).Nodup :=
    hperm.symm.nodup xs.nodup_dedup
  refine ⟨hnodup, ?_, ?_, ?_, ?_, ?_, rfl⟩
  · intro x
    rw [hperm.mem_iff, List.mem_dedup]
  · have hsorted : (labelEncoderClasses xs).Sorted
        (fun a b => a.data ≤ b.data) :=
      List.sorted_insertionSort _ _
    exact hsorted.imp (fun h => String.le_iff_toList_le.mpr h)
  · intro x hx
    exact List.indexOf_lt_length.mpr hx
  · intro x hx y hy h
    exact (List.indexOf_inj hx hy).mp h
  · intro i hi
    exact ⟨(labelEncoderClasses xs).get ⟨i, hi⟩, List.get_mem _ _ _,
      List.get_indexOf hnodup ⟨i, hi⟩⟩

/-- C2 counterexample: on the training population `["b", "a"]` the claim's
first-seen order would give `"b"` the code 0; the source's encoder sorts the
classes (`np.unique`), so `"b"` receives code 1. -/
theorem c2_counterexample :
    labelEncoderClasses ["b", "a"] = ["a", "b"] ∧
    (labelEncoderClasses ["b", "a"]).indexOf "b" = 1 ∧
    firstSeenClasses ["b", "a"] = ["b", "a"] := by
  refine ⟨by decide, by decide, by decide⟩

/-! ## C10: export ordering -/

instance : IsTotal HighRiskOutputRow
    (fun a b => b.return_probability ≤ a.return_probability) :=
  ⟨fun a b => le_total b.return_probability a.return_probability⟩

instance : IsTrans HighRiskOutputRow
    (fun a b => b.return_probability ≤ a.return_probability) :=
  ⟨fun _ _ _ h1 h2 => le_trans h2 h1⟩

/-- C10 (confirmed). The exported high-risk list is sorted by return
probability in descending order: every row's probability is greater than or
equal to that of every later row (in particular of the next row). -/
theorem c10_export_sorted_desc (highRisk : List ScoredRecord) :
    (save_high_risk_products highRisk).Sorted
      (fun a b => b.return_probability ≤ a.return_probability) :=
  List.sorted_insertionSort _ _

/-! ## C9: frame effects of aggregation and scoring -/

/-- Successful scoring with every category/version string fitted, with the
explicit fact that the caller's frame comes back unchanged. -/
theorem identify_ok_exists (catC verC : List String)
    (proba : CleanedRecord → ℚ) (df : Frame)
    (h : ∀ r ∈ df.rows, r.category.getD "nan" ∈ catC ∧ r.versionClean ∈ verC) :
    ∃ out, identify_high_risk_products catC verC proba df = .ok out ∧
      out.1 = df := by
  obtain ⟨c1, h1⟩ := @labelEncoderTransform_ok catC
    (df.rows.map (fun r => r.category.getD "nan"))
    (by
      intro x hx
      obtain ⟨r, hr, rfl⟩ := List.mem_map.mp hx
      exact (h r hr).1)
  obtain ⟨c2, h2⟩ := @labelEncoderTransform_ok verC
    (df.rows.map (fun r => r.versionClean))
    (by
      intro x hx
      obtain ⟨r, hr, rfl⟩ := List.mem_map.mp hx
      exact (h r hr).2)
  unfold identify_high_risk_products
  rw [h1, h2]
  exact ⟨_, rfl, rfl⟩

/-- C9 (amended). Scoring never writes onto the cleaned records it is given:
on success the caller's frame comes back exactly as passed (probabilities and
tiers are attached only to the output copy).  Descriptive aggregation,
however, does modify its input table: it leaves the records themselves
unchanged but assigns a new `year_month` column onto the input frame in
place (`return_analysis.py` line 43), so the frame after the call differs
from the frame before it. -/
theorem c9_frame_effects (df : Frame) (catC verC : List String)
    (proba : CleanedRecord → ℚ)
    (out : Frame × List ScoredRecord × List ScoredRecord) :
    (identify_high_risk_products catC verC proba df = .ok out → out.1 = df) ∧
    (comprehensive_return_analysis df).2.rows = df.rows ∧
    (comprehensive_return_analysis df).2 ≠ df := by
  refine ⟨?_, rfl, ?_⟩
  · intro h
    unfold identify_high_risk_products at h
    cases h1 : labelEncoderTransform catC
        (df.rows.map (fun r => r.category.getD "nan")) with
    | error e =>
      rw [h1] at h
      cases h2 : labelEncoderTransform verC
          (df.rows.map (fun r => r.versionClean)) with
      | ok v => rw [h2] at h; exact Except.noConfusion h
      | error e2 => rw [h2] at h; exact Except.noConfusion h
    | ok v =>
      rw [h1] at h
      cases h2 : labelEncoderTransform verC
          (df.rows.map (fun r => r.versionClean)) with
      | ok w => rw [h2] at h; cases h; rfl
      | error e2 => rw [h2] at h; exact Except.noConfusion h
  · intro h
    have hlen := congrArg (fun f => f.extraCols.length) h
    simp only [comprehensive_return_analysis, List.length_append,
      List.length_singleton] at hlen
    omega

/-- C9 witness: on a concrete one-record frame with fitted encoders, scoring
succeeds and returns the input frame untouched. -/
theorem c9_witness :
    ∃ out, identify_high_risk_products ["Electronics"] ["S"] (fun _ => 0)
        ⟨[sampleRecord], []⟩ = .ok out ∧ out.1 = ⟨[sampleRecord], []⟩ := by
  obtain ⟨out, hEq, _⟩ := identify_ok_exists ["Electronics"] ["S"] (fun _ => 0)
    ⟨[sampleRecord], []⟩
    (by intro r hr; rw [List.mem_singleton.mp hr]; exact ⟨by decide, by decide⟩)
  exact ⟨out, hEq,
    (c9_frame_effects ⟨[sampleRecord], []⟩ ["Electronics"] ["S"]
      (fun _ => 0) out).1 hEq⟩

/-- C9 counterexample: on the concrete empty frame, descriptive aggregation
does not leave its input table unchanged — the claim's "reads but does not
modify its input table" fails because the `year_month` column is assigned
onto the input. -/
theorem c9_counterexample :
    (comprehensive_return_analysis ⟨[], []⟩).2 ≠ (⟨[], []⟩ : Frame) := by
  decide

/-! ## Group-sum machinery for C6/C7 -/

/-- Pointwise sums distribute over a list of keys. -/
theorem sum_map_add_nat {κ : Type} (f g : κ → ℕ) (ks : List κ) :
    (ks.map (fun k => f k + g k)).sum = (ks.map f).sum + (ks.map g).sum := by
  induction ks with
  | nil => simp
  | cons a t ih => simp [ih]; omega

/-- Summing an indicator of one key over a duplicate-free key list that
contains it yields that key's weight. -/
theorem sum_map_ite_eq_nat {κ : Type} [DecidableEq κ] {ks : List κ} {k₀ : κ}
    (c : ℕ) (hnd : ks.Nodup) (hk : k₀ ∈ ks) :
    (ks.map (fun k => if k = k₀ then c else 0)).sum = c := by
  induction ks with
  | nil => simp at hk
  | cons a t ih =>
    obtain ⟨hat, htnd⟩ := List.nodup_cons.mp hnd
    rcases List.mem_cons.mp hk with rfl | hkt
    · have hzero : ∀ x ∈ t.map (fun k => if k = k₀ then c else 0), x = 0 := by
        intro x hx
        obtain ⟨k, hkmem, rfl⟩ := List.mem_map.mp hx
        refine if_neg ?_
        intro hka
        exact hat (hka ▸ hkmem)
      simp [List.sum_eq_zero hzero]
    · have hak₀ : ¬ a = k₀ := fun hak => hat (hak ▸ hkt)
      simp only [List.map_cons, List.sum_cons, if_neg hak₀, Nat.zero_add]
      exact ih htnd hkt

/-- Exchange of summation: summing a weight over the rows of each group, then
over a duplicate-free key list covering every key that occurs, equals summing
the weight over the rows whose key is non-null. -/
theorem sum_groups_eq_sum_keyed {α κ : Type} [DecidableEq κ]
    (g : α → Option κ) (w : α → ℕ) (rows : List α) (ks : List κ)
    (hnd : ks.Nodup) (hcov : ∀ r ∈ rows, ∀ k, g r = some k → k ∈ ks) :
    (ks.map (fun k =>
      ((rows.filter (fun r => decide (g r = some k))).map w).sum)).sum
      = ((rows.filter (fun r => (g r).isSome)).map w).sum := by
  induction rows with
  | nil => simp
  | cons r rs ih =>
    have hcov' : ∀ x ∈ rs, ∀ k, g x = some k → k ∈ ks :=
      fun x hx => hcov x (List.mem_cons_of_mem r hx)
    cases hgr : g r with
    | none =>
      have hl : (ks.map (fun k =>
          (((r :: rs).filter (fun x => decide (g x = some k))).map w).sum))
          = (ks.map (fun k =>
          ((rs.filter (fun x => decide (g x = some k))).map w).sum)) := by
        apply List.map_congr_left
        intro k _
        rw [List.filter_cons_of_neg (by simp [hgr])]
      rw [hl, ih hcov', List.filter_cons_of_neg (by simp [hgr])]
    | some k₀ =>
      have hk₀ : k₀ ∈ ks := hcov r (List.mem_cons_self r rs) k₀ hgr
      have hl : (ks.map (fun k =>
          (((r :: rs).filter (fun x => decide (g x = some k))).map w).sum))
          = (ks.map (fun k =>
          (if k = k₀ then w r else 0) +
            ((rs.filter (fun x => decide (g x = some k))).map w).sum)) := by
        apply List.map_congr_left
        intro k _
        by_cases hkk : k = k₀
        · subst hkk
          rw [List.filter_cons_of_pos (by simp [hgr]), if_pos rfl]
          simp
        · rw [List.filter_cons_of_neg
            (by simp only [hgr, decide_eq_true_eq, Option.some_inj]
                exact fun h => hkk h.symm), if_neg hkk]
          omega
      rw [hl, sum_map_add_nat, sum_map_ite_eq_nat (w r) hnd hk₀, ih hcov',
        List.filter_cons_of_pos (by simp [hgr])]
      simp

/-- The keys of a grouping are duplicate-free. -/
theorem groupKeys_nodup {κ : Type} [DecidableEq κ]
    (g : CleanedRecord → Option κ) (rows : List CleanedRecord) :
    (groupKeys g rows).Nodup :=
  List.nodup_dedup _

/-- The keys of a grouping cover every key occurring in the rows. -/
theorem groupKeys_cover {κ : Type} [DecidableEq κ]
    (g : CleanedRecord → Option κ) (rows : List CleanedRecord) :
    ∀ r ∈ rows, ∀ k, g r = some k → k ∈ groupKeys g rows := by
  intro r hr k hk
  exact List.mem_dedup.mpr (List.mem_filterMap.mpr ⟨r, hr, hk⟩)

/-- Mapping the constant weight 1 sums to the length. -/
theorem sum_map_one {α : Type} (l : List α) :
    (l.map (fun _ => (1 : ℕ))).sum = l.length := by
  induction l with
  | nil => rfl
  | cons a t ih => simp [ih, Nat.add_comm]

/-- Per-group order counts of `aggBy` sum to the number of rows with a
non-null key. -/
theorem sum_aggBy_total_orders {κ : Type} [DecidableEq κ]
    (g : CleanedRecord → Option κ) (rows : List CleanedRecord) :
    ((aggBy g rows).map (fun gr => gr.total_orders)).sum
      = (rows.filter (fun r => (g r).isSome)).length := by
  unfold aggBy
  rw [List.map_map]
  have hcongr : ((groupKeys g rows).map (fun k =>
      ((rows.filter (fun r => decide (g r = some k))).map (fun _ => (1 : ℕ))).sum)).sum
      = ((rows.filter (fun r => (g r).isSome)).map (fun _ => (1 : ℕ))).sum :=
    sum_groups_eq_sum_keyed g (fun _ => 1) rows (groupKeys g rows)
      (groupKeys_nodup g rows) (groupKeys_cover g rows)
  rw [sum_map_one] at hcongr
  rw [← hcongr]
  apply congrArg
  apply List.map_congr_left
  intro k _
  simp [sum_map_one]

/-- Per-group return counts of `aggBy` sum to the `is_return` total over the
rows with a non-null key. -/
theorem sum_aggBy_returns {κ : Type} [DecidableEq κ]
    (g : CleanedRecord → Option κ) (rows : List CleanedRecord) :
    ((aggBy g rows).map (fun gr => gr.returns)).sum
      = ((rows.filter (fun r => (g r).isSome)).map (fun r => r.is_return)).sum := by
  unfold aggBy
  rw [List.map_map]
  exact sum_groups_eq_sum_keyed g (fun r => r.is_return) rows (groupKeys g rows)
    (groupKeys_nodup g rows) (groupKeys_cover g rows)

/-- Sorting by rate does not change any column sum. -/
theorem sum_map_sortByRateDesc {κ : Type} (f : GroupRow κ → ℕ)
    (l : List (GroupRow κ)) :
    ((sortByRateDesc l).map f).sum = (l.map f).sum :=
  ((List.perm_insertionSort _ l).map f).sum_eq

/-! ## C7: aggregation round-trip -/

/-- C7 (amended). For the category and calendar-month groupings, the
per-group order counts sum to the number of records whose grouping key is
non-null, and the per-group return counts sum to the `is_return` total over
those records.  (`groupby` drops rows with a null key, so a record whose
date failed to parse is absent from every monthly group — the claim's
"equals the total record count, including null-date populations" fails, see
`c7_counterexample`; the totals agree exactly when every record has a
non-null key for the grouping.) -/
theorem c7_aggregation_sums_keyed (rows : List CleanedRecord) :
    (((category_analysis rows).map (fun gr => gr.total_orders)).sum
        = (rows.filter (fun r => r.category.isSome)).length) ∧
    (((category_analysis rows).map (fun gr => gr.returns)).sum
        = ((rows.filter (fun r => r.category.isSome)).map
            (fun r => r.is_return)).sum) ∧
    (((monthly_trends rows).map (fun gr => gr.total_orders)).sum
        = (rows.filter (fun r => (yearMonth r).isSome)).length) ∧
    (((monthly_trends rows).map (fun gr => gr.returns)).sum
        = ((rows.filter (fun r => (yearMonth r).isSome)).map
            (fun r => r.is_return)).sum) := by
  refine ⟨?_, ?_, ?_, ?_⟩
  · unfold category_analysis
    rw [sum_map_sortByRateDesc]
    exact sum_aggBy_total_orders (fun r => r.category) rows
  · unfold category_analysis
    rw [sum_map_sortByRateDesc]
    exact sum_aggBy_returns (fun r => r.category) rows
  · unfold monthly_trends
    exact sum_aggBy_total_orders yearMonth rows
  · unfold monthly_trends
    exact sum_aggBy_returns yearMonth rows

/-- A concrete cleaned record whose date failed to parse (`NaT`) and which is
a return. -/
def nullDateRecord : CleanedRecord :=
  { sampleRecord with date := none, is_return := 1 }

/-- C7 counterexample: for the one-record population whose date failed to
parse, the monthly grouping's order counts sum to 0, not to the total record
count 1, and its return counts sum to 0, not to the `is_return` total 1. -/
theorem c7_counterexample :
    ((monthly_trends [nullDateRecord]).map (fun gr => gr.total_orders)).sum = 0 ∧
    ([nullDateRecord] : List CleanedRecord).length = 1 ∧
    ((monthly_trends [nullDateRecord]).map (fun gr => gr.returns)).sum = 0 ∧
    ([nullDateRecord].map (fun r => r.is_return)).sum = 1 := by
  decide

/-! ## C6: version-level minimum-orders filter -/

/-- C6 (amended). The version-level aggregation result contains a group for a
normalized-version string iff that string has **strictly more than 10**
orders in the population (`total_orders > 10`); a group with exactly 10
orders is removed, see `c6_counterexample`. -/
theorem c6_version_group_iff (rows : List CleanedRecord) (v : String) :
    (∃ gr ∈ version_analysis rows, gr.key = v) ↔
      10 < rows.countP (fun r => decide (r.versionClean = v)) := by
  have hpred : ∀ u : String, (fun r : CleanedRecord =>
      decide (some r.versionClean = some u)) = (fun r => decide (r.versionClean = u)) := by
    intro u
    funext r
    simp
  unfold version_analysis sortByRateDesc
  constructor
  · rintro ⟨gr, hgr, rfl⟩
    have hmemf : gr ∈ (aggBy (fun r => some r.versionClean) rows).filter
        (fun gr => decide (10 < gr.total_orders)) :=
      (List.perm_insertionSort _ _).mem_iff.mp hgr
    obtain ⟨hmem, hcond⟩ := List.mem_filter.mp hmemf
    have h10 : 10 < gr.total_orders := of_decide_eq_true hcond
    unfold aggBy at hmem
    obtain ⟨k, _, heq⟩ := List.mem_map.mp hmem
    have hkey : gr.key = k := by rw [← heq]
    have horders : gr.total_orders
        = (rows.filter (fun r => decide (some r.versionClean = some k))).length := by
      rw [← heq]
    rw [List.countP_eq_length_filter, ← hpred gr.key, hkey, ← horders]
    exact h10
  · intro h10
    have hpos : 0 < rows.countP (fun r => decide (r.versionClean = v)) := by omega
    obtain ⟨r, hr, hrv⟩ := List.countP_pos_iff.mp hpos
    have hrv' : r.versionClean = v := of_decide_eq_true hrv
    have hkmem : v ∈ groupKeys (fun r => some r.versionClean) rows :=
      List.mem_dedup.mpr (List.mem_filterMap.mpr ⟨r, hr, by rw [hrv']⟩)
    refine ⟨_, (List.perm_insertionSort _ _).mem_iff.mpr
      (List.mem_filter.mpr ⟨List.mem_map_of_mem _ hkmem, ?_⟩), rfl⟩
    refine decide_eq_true ?_
    show 10 < (rows.filter (fun r => decide (some r.versionClean = some v))).length
    rw [hpred v, ← List.countP_eq_length_filter]
    exact h10

/-- C6 counterexample: a version string with exactly 10 orders.  The claim
keeps every group with at least 10 orders, but the source filters on
`total_orders > 10`, so the 10-order group `"S"` is removed. -/
theorem c6_counterexample :
    (List.replicate 10 sampleRecord).countP
      (fun r => decide (r.versionClean = "S")) = 10 ∧
    ¬ ∃ gr ∈ version_analysis (List.replicate 10 sampleRecord),
      gr.key = "S" := by
  decide

end ReturnPipeline
